import Mathlib

/-!
Shallow embedding of the FinSmart risk-analysis engine: the three analysis
routes of the risk router (concentration analysis, VaR analysis, stress
test).  Numbers are modelled as rationals; JavaScript objects used as
string-keyed maps are modelled as insertion-ordered association lists, and
JavaScript truthiness of a possibly-absent number (`x || d`, `if (m[k])`)
is modelled explicitly: `none` and `0` are falsy.
-/

namespace FinSmart

/-- A holdings row as the risk routes read it. -/
structure Holding where
  symbol : String
  value : ℚ
  sector : String
  region : String
  asset_class : String
  weight_percent : ℚ
deriving DecidableEq

/-- A portfolios row as the risk routes read it. -/
structure Portfolio where
  id : String
  name : String
  client_name : String
  total_value : ℚ
  var_1d : ℚ
  margin_utilization : ℚ
deriving DecidableEq

/-! ### Concentration analysis (GET /risk/concentration) -/

/-- The JS accumulation `m[k] = (m[k] || 0) + w` on a string-keyed object:
add `w` to the entry for `k`, appending a fresh entry when `k` is absent
(JS objects keep string keys in insertion order). -/
def updateAssoc : List (String × ℚ) → String → ℚ → List (String × ℚ)
  | [], k, w => [(k, w)]
  | (a, b) :: rest, k, w =>
      if a = k then (a, b + w) :: rest else (a, b) :: updateAssoc rest k w

/-- The `holdings.forEach` accumulation of one of the three concentration
maps: each holding contributes `weight_percent / 100` to the entry keyed by
`dim holding` (its sector, region or asset class). -/
def concentrationMap (dim : Holding → String) (holdings : List Holding) :
    List (String × ℚ) :=
  holdings.foldl (fun m h => updateAssoc m (dim h) (h.weight_percent / 100)) []

/-- Severity breakpoints of a sector concentration finding. -/
def sectorSeverity (c : ℚ) : String :=
  if c > 1/2 then "high" else if c > 2/5 then "medium" else "low"

/-- Severity breakpoints of a geographic concentration finding. -/
def geoSeverity (c : ℚ) : String :=
  if c > 9/10 then "high" else if c > 17/20 then "medium" else "low"

/-- One element of the `concentration_risks` array. -/
structure ConcentrationRisk where
  type : String
  name : String
  concentration : ℚ
  threshold : ℚ
  severity : String
deriving DecidableEq

/-- The loop over `Object.entries(sectorConcentration)`: push a `sector`
risk for every entry strictly above the configured threshold. -/
def sectorRisks (threshold : ℚ) (m : List (String × ℚ)) :
    List ConcentrationRisk :=
  m.filterMap fun e =>
    if e.2 > threshold then
      some { type := "sector", name := e.1, concentration := e.2,
             threshold := threshold, severity := sectorSeverity e.2 }
    else none

/-- The loop over `Object.entries(regionConcentration)`: push a
`geographic` risk for every entry strictly above the hard-coded 0.75. -/
def regionRisks (m : List (String × ℚ)) : List ConcentrationRisk :=
  m.filterMap fun e =>
    if e.2 > 3/4 then
      some { type := "geographic", name := e.1, concentration := e.2,
             threshold := 3/4, severity := geoSeverity e.2 }
    else none

/-- The reducer of `risk_score`: high counts 3, medium 2, otherwise 1. -/
def riskPoints (r : ConcentrationRisk) : ℚ :=
  if r.severity = "high" then 3 else if r.severity = "medium" then 2 else 1

/-- One element of the handler's `concentrationAnalysis` array. -/
structure ConcentrationEntry where
  portfolio_id : String
  portfolio_name : String
  client_name : String
  sector_concentration : List (String × ℚ)
  region_concentration : List (String × ℚ)
  asset_class_concentration : List (String × ℚ)
  concentration_risks : List ConcentrationRisk
  risk_score : ℚ
deriving DecidableEq

/-- The per-portfolio body of the concentration handler: build the three
concentration maps, then emit risks from the sector map (against the
configured threshold) and the region map (against 0.75).  The asset-class
map is computed and reported but no risks are emitted from it, exactly as
in the source. -/
def analyzeConcentration (threshold : ℚ) (p : Portfolio)
    (holdings : List Holding) : ConcentrationEntry :=
  let sectorConcentration := concentrationMap (fun h => h.sector) holdings
  let regionConcentration := concentrationMap (fun h => h.region) holdings
  let assetClassConcentration :=
    concentrationMap (fun h => h.asset_class) holdings
  let risks := sectorRisks threshold sectorConcentration ++
    regionRisks regionConcentration
  { portfolio_id := p.id
    portfolio_name := p.name
    client_name := p.client_name
    sector_concentration := sectorConcentration
    region_concentration := regionConcentration
    asset_class_concentration := assetClassConcentration
    concentration_risks := risks
    risk_score := if risks.length > 0 then (risks.map riskPoints).sum else 0 }

/-- The grouped weight fraction of key `k` under dimension `dim`: the sum
of `weight_percent / 100` over the holdings whose `dim` equals `k`. -/
def groupSum (dim : Holding → String) (holdings : List Holding)
    (k : String) : ℚ :=
  ((holdings.filter (fun h => dim h == k)).map
    (fun h => h.weight_percent / 100)).sum

/-- The summed weight fraction of sector `X`. -/
def sectorWeight (holdings : List Holding) (X : String) : ℚ :=
  groupSum (fun h => h.sector) holdings X

/-! ### VaR analysis (GET /risk/var-analysis) -/

/-- One element of the handler's `varAnalysis` array. -/
structure VarAssessment where
  portfolio_id : String
  portfolio_name : String
  client_name : String
  total_value : ℚ
  var_1d : ℚ
  var_5d : ℚ
  var_1m : ℚ
  var_percentage : ℚ
  risk_level : String
  confidence_level : ℚ
  margin_utilization : ℚ
  risk_score : ℚ
deriving DecidableEq

/-- The per-portfolio body of the VaR handler.  `sqrt5` and `sqrt22` stand
for the floating-point values `Math.sqrt(5)` and `Math.sqrt(22)`; the
handler only ever multiplies by them, so they are carried as parameters. -/
def varAssessmentOf (sqrt5 sqrt22 confidence : ℚ) (p : Portfolio) :
    VarAssessment :=
  let var1d := |p.var_1d|
  let portfolioValue := p.total_value
  let varPercentage := var1d / portfolioValue * 100
  let riskLevel :=
    if varPercentage > 5 then "high"
    else if varPercentage > 2 then "medium" else "low"
  let var5d := var1d * sqrt5
  let var1m := var1d * sqrt22
  { portfolio_id := p.id
    portfolio_name := p.name
    client_name := p.client_name
    total_value := portfolioValue
    var_1d := -var1d
    var_5d := -var5d
    var_1m := -var1m
    var_percentage := varPercentage
    risk_level := riskLevel
    confidence_level := confidence
    margin_utilization := p.margin_utilization
    risk_score := varPercentage * (p.margin_utilization + 1/2) }

/-- The error vocabulary the specification assigns to the VaR analyzer. -/
inductive VarError where
  | invalidPortfolio
deriving DecidableEq

/-- The VaR handler's per-portfolio computation with its error channel
made explicit.  The source maps over portfolios with no validation and no
throw, so every portfolio — whatever its `total_value` — produces
`Except.ok` of the assessment. -/
def classifyVar (sqrt5 sqrt22 confidence : ℚ) (p : Portfolio) :
    Except VarError VarAssessment :=
  Except.ok (varAssessmentOf sqrt5 sqrt22 confidence p)

/-! ### Stress test (POST /risk/stress-test) -/

/-- A stress scenario from the request body: `market_shock` and
`sector_shocks` may each be absent. -/
structure Scenario where
  name : String
  market_shock : Option ℚ
  sector_shocks : Option (List (String × ℚ))
deriving DecidableEq

/-- The JS read `scenario.sector_shocks[holding.sector]` guarded by
`scenario.sector_shocks &&`: `none` when the map is absent or has no entry
for the sector. -/
def lookupShock (shocks : Option (List (String × ℚ))) (sector : String) :
    Option ℚ :=
  match shocks with
  | none => none
  | some m => m.lookup sector

/-- The JS `a || b` on a possibly-absent number: absent and `0` are both
falsy, so each falls through to `b`. -/
def jsOr (a : Option ℚ) (b : ℚ) : ℚ :=
  match a with
  | none => b
  | some v => if v = 0 then b else v

/-- The shock applied to one holding: start from
`scenario.market_shock || -0.1` (a default 10% market decline), then
override with the sector-specific shock when that entry is present and
truthy (a sector entry of exactly 0 is falsy and does not override). -/
def holdingShockOf (sc : Scenario) (h : Holding) : ℚ :=
  let base := jsOr sc.market_shock (-(1/10))
  match lookupShock sc.sector_shocks h.sector with
  | none => base
  | some v => if v = 0 then base else v

/-- One element of a scenario's `holding_impacts` array. -/
structure HoldingImpact where
  symbol : String
  current_value : ℚ
  shock : ℚ
  impact : ℚ
  stressed_value : ℚ
deriving DecidableEq

/-- The body of the inner holdings loop for one holding. -/
def holdingImpactOf (sc : Scenario) (h : Holding) : HoldingImpact :=
  let shock := holdingShockOf sc h
  let impact := h.value * shock
  { symbol := h.symbol, current_value := h.value, shock := shock,
    impact := impact, stressed_value := h.value + impact }

/-- One element of a portfolio's `scenarios` result array. -/
structure ScenarioResult where
  name : String
  stressed_value : ℚ
  total_impact : ℚ
  impact_percentage : ℚ
  holding_impacts : List HoldingImpact
  risk_level : String
deriving DecidableEq

/-- The body of the per-scenario loop: `stressedValue` starts from the
unshocked `portfolio.total_value` and accumulates every holding's impact
(written here as the sum of the mapped impacts), then the impact totals
and the severity breakpoints are applied. -/
def scenarioResultOf (p : Portfolio) (holdings : List Holding)
    (sc : Scenario) : ScenarioResult :=
  let impacts := holdings.map (holdingImpactOf sc)
  let stressedValue := p.total_value + (impacts.map (fun i => i.impact)).sum
  let totalImpact := p.total_value - stressedValue
  let impactPercentage := totalImpact / p.total_value * 100
  { name := sc.name
    stressed_value := stressedValue
    total_impact := totalImpact
    impact_percentage := impactPercentage
    holding_impacts := impacts
    risk_level :=
      if impactPercentage > 20 then "high"
      else if impactPercentage > 10 then "medium" else "low" }

/-- The error vocabulary the specification assigns to the stress tester. -/
inductive StressError where
  | invalidScenario
deriving DecidableEq

/-- The stress-test handler for one portfolio: the guard
`if (!scenarios || scenarios.length === 0)` rejects an absent or empty
scenario list before any computation; otherwise every scenario is
evaluated in order from the same unshocked portfolio and holdings. -/
def runStressTest (p : Portfolio) (holdings : List Holding)
    (scenarios : Option (List Scenario)) :
    Except StressError (List ScenarioResult) :=
  match scenarios with
  | none => Except.error StressError.invalidScenario
  | some [] => Except.error StressError.invalidScenario
  | some scs => Except.ok (scs.map (scenarioResultOf p holdings))

/-! ### Concrete sample inputs used by witnesses and counterexamples -/

/-- A sample holding: all of the portfolio in one technology stock. -/
def hTech : Holding :=
  { symbol := "AAPL", value := 1000000, sector := "Technology",
    region := "US", asset_class := "Equity", weight_percent := 100 }

/-- A sample portfolio with a positive total value. -/
def pPos : Portfolio :=
  { id := "p1", name := "Growth", client_name := "Acme",
    total_value := 12500000, var_1d := -187500, margin_utilization := 1/2 }

/-- The same portfolio with `total_value` set to zero. -/
def pZero : Portfolio :=
  { id := "p1", name := "Growth", client_name := "Acme",
    total_value := 0, var_1d := -187500, margin_utilization := 1/2 }

/-- A scenario that supplies an explicit market shock of 0. -/
def scZero : Scenario :=
  { name := "flat", market_shock := some 0, sector_shocks := none }

/-- A scenario with a plain -10% market shock. -/
def scDown : Scenario :=
  { name := "decline", market_shock := some (-(1/10)), sector_shocks := none }

/-- A one-million portfolio holding exactly hTech (spec scenario 3). -/
def pOneM : Portfolio :=
  { id := "p2", name := "Tech", client_name := "Acme",
    total_value := 1000000, var_1d := -50000, margin_utilization := 1/2 }

/-- The sector finding that the concentration sample emits. -/
def rTech : ConcentrationRisk :=
  { type := "sector", name := "Technology", concentration := 1,
    threshold := 3/10, severity := "high" }

end FinSmart

namespace FinSmart

/-- Updating key `k` makes its lookup the old value (0 when absent) plus `w`. -/
lemma updateAssoc_lookup_self (m : List (String × ℚ)) (k : String) (w : ℚ) :
    (updateAssoc m k w).lookup k = some ((m.lookup k).getD 0 + w) := by
  induction m with
  | nil => simp [updateAssoc]
  | cons e rest ih =>
    obtain ⟨a, b⟩ := e
    by_cases hak : a = k
    · subst hak; simp [updateAssoc]
    · have h1 : (k == a) = false := beq_eq_false_iff_ne.mpr (Ne.symm hak)
      simp [updateAssoc, hak, List.lookup, h1, ih]

/-- Updating key `k` leaves every other key's lookup unchanged. -/
lemma updateAssoc_lookup_ne (m : List (String × ℚ)) (k k' : String) (w : ℚ)
    (hne : k' ≠ k) : (updateAssoc m k w).lookup k' = m.lookup k' := by
  have h0 : (k' == k) = false := beq_eq_false_iff_ne.mpr hne
  induction m with
  | nil => simp [updateAssoc, List.lookup, h0]
  | cons e rest ih =>
    obtain ⟨a, b⟩ := e
    by_cases hak : a = k
    · subst hak
      simp [updateAssoc, List.lookup, h0]
    · simp [updateAssoc, hak, List.lookup, ih]

/-- The key list after an update: unchanged when `k` was present, else `k`
is appended. -/
lemma updateAssoc_keys (m : List (String × ℚ)) (k : String) (w : ℚ) :
    (updateAssoc m k w).map Prod.fst =
      if k ∈ m.map Prod.fst then m.map Prod.fst else m.map Prod.fst ++ [k] := by
  induction m with
  | nil => simp [updateAssoc]
  | cons e rest ih =>
    obtain ⟨a, b⟩ := e
    by_cases hak : a = k
    · subst hak; simp [updateAssoc]
    · by_cases hmem : k ∈ rest.map Prod.fst <;>
        simp [updateAssoc, hak, Ne.symm hak, hmem, ih]

/-- Updates preserve distinctness of the keys. -/
lemma updateAssoc_nodupKeys (m : List (String × ℚ)) (k : String) (w : ℚ)
    (hnd : (m.map Prod.fst).Nodup) :
    ((updateAssoc m k w).map Prod.fst).Nodup := by
  rw [updateAssoc_keys]
  split
  · exact hnd
  · next hk =>
    refine List.Nodup.append hnd (List.nodup_singleton k) ?_
    intro x hx hx'
    simp at hx'
    subst hx'
    exact hk hx

/-- Splitting `groupSum` over a cons. -/
lemma groupSum_cons (dim : Holding → String) (h : Holding) (t : List Holding)
    (k : String) :
    groupSum dim (h :: t) k =
      (if dim h = k then h.weight_percent / 100 else 0) + groupSum dim t k := by
  by_cases hk : dim h = k <;> simp [groupSum, List.filter_cons, hk]

end FinSmart

namespace FinSmart

/-- Folding the remaining holdings on top of an accumulator that already
has an entry for `k` adds exactly the grouped weight of `k`. -/
lemma foldl_lookup_some (dim : Holding → String) (hs : List Holding) :
    ∀ (m : List (String × ℚ)) (k : String) (v : ℚ), m.lookup k = some v →
      (hs.foldl (fun m h => updateAssoc m (dim h) (h.weight_percent / 100))
          m).lookup k = some (v + groupSum dim hs k) := by
  induction hs with
  | nil =>
    intro m k v hv
    simpa [groupSum] using hv
  | cons h t ih =>
    intro m k v hv
    simp only [List.foldl_cons]
    by_cases hk : dim h = k
    · have h1 : (updateAssoc m (dim h) (h.weight_percent / 100)).lookup k
          = some (v + h.weight_percent / 100) := by
        subst hk
        rw [updateAssoc_lookup_self, hv]
        rfl
      rw [ih _ k _ h1, groupSum_cons, if_pos hk]
      congr 1
      ring
    · have h1 : (updateAssoc m (dim h) (h.weight_percent / 100)).lookup k
          = m.lookup k :=
        updateAssoc_lookup_ne _ _ _ _ (fun hkk => hk hkk.symm)
      rw [ih _ k _ (h1.trans hv), groupSum_cons, if_neg hk, zero_add]

/-- Folding the holdings on top of an accumulator with no entry for `k`
produces an entry exactly when some holding has dimension `k`, holding the
grouped weight of `k`. -/
lemma foldl_lookup_none (dim : Holding → String) (hs : List Holding) :
    ∀ (m : List (String × ℚ)) (k : String), m.lookup k = none →
      (hs.foldl (fun m h => updateAssoc m (dim h) (h.weight_percent / 100))
          m).lookup k =
        if ∃ h ∈ hs, dim h = k then some (groupSum dim hs k) else none := by
  induction hs with
  | nil =>
    intro m k hv
    simpa using hv
  | cons h t ih =>
    intro m k hv
    simp only [List.foldl_cons]
    by_cases hk : dim h = k
    · have h1 : (updateAssoc m (dim h) (h.weight_percent / 100)).lookup k
          = some (0 + h.weight_percent / 100) := by
        subst hk
        rw [updateAssoc_lookup_self, hv]
        rfl
      rw [foldl_lookup_some dim t _ k _ h1]
      rw [if_pos ⟨h, by simp, hk⟩, groupSum_cons, if_pos hk]
      congr 1
      ring
    · have h1 : (updateAssoc m (dim h) (h.weight_percent / 100)).lookup k
          = m.lookup k :=
        updateAssoc_lookup_ne _ _ _ _ (fun hkk => hk hkk.symm)
      rw [ih _ k (h1.trans hv), groupSum_cons, if_neg hk, zero_add]
      congr 1
      simp only [List.mem_cons, eq_iff_iff]
      constructor
      · rintro ⟨h', hh', hd⟩
        exact ⟨h', Or.inr hh', hd⟩
      · rintro ⟨h', hh' | hh', hd⟩
        · exact absurd (hh' ▸ hd) hk
        · exact ⟨h', hh', hd⟩

/-- Lookup in a concentration map: an entry exists exactly for the keys
realized by some holding, and holds the grouped weight fraction. -/
lemma concentrationMap_lookup (dim : Holding → String) (hs : List Holding)
    (k : String) :
    (concentrationMap dim hs).lookup k =
      if ∃ h ∈ hs, dim h = k then some (groupSum dim hs k) else none := by
  unfold concentrationMap
  exact foldl_lookup_none dim hs [] k rfl

/-- The keys of a concentration map are distinct. -/
lemma concentrationMap_nodupKeys (dim : Holding → String) (hs : List Holding) :
    ((concentrationMap dim hs).map Prod.fst).Nodup := by
  unfold concentrationMap
  have : ∀ (m : List (String × ℚ)), (m.map Prod.fst).Nodup →
      ((hs.foldl (fun m h => updateAssoc m (dim h) (h.weight_percent / 100))
          m).map Prod.fst).Nodup := by
    induction hs with
    | nil => intro m hm; simpa using hm
    | cons h t ih =>
      intro m hm
      simp only [List.foldl_cons]
      exact ih _ (updateAssoc_nodupKeys _ _ _ hm)
  exact this [] (by simp)

/-- With distinct keys, membership of an entry is lookup of its key. -/
lemma lookup_eq_some_of_mem (m : List (String × ℚ))
    (hnd : (m.map Prod.fst).Nodup) (e : String × ℚ) (he : e ∈ m) :
    m.lookup e.1 = some e.2 := by
  induction m with
  | nil => cases he
  | cons a rest ih =>
    rcases List.mem_cons.mp he with h | h
    · subst h
      simp [List.lookup]
    · have hne : e.1 ≠ a.1 := by
        intro hfst
        have h1 : a.1 ∉ rest.map Prod.fst := (List.nodup_cons.mp (by simpa using hnd)).1
        exact h1 (hfst ▸ List.mem_map.mpr ⟨e, h, rfl⟩)
      have h0 : (e.1 == a.1) = false := beq_eq_false_iff_ne.mpr hne
      simp only [List.lookup, h0]
      exact ih (List.nodup_cons.mp (by simpa using hnd)).2 h

/-- A successful lookup names an entry of the list. -/
lemma mem_of_lookup_eq_some (m : List (String × ℚ)) (k : String) (v : ℚ)
    (h : m.lookup k = some v) : (k, v) ∈ m := by
  induction m with
  | nil => simp [List.lookup] at h
  | cons a rest ih =>
    by_cases hk : k = a.1
    · subst hk
      simp [List.lookup] at h
      simp [← h]
    · have h0 : (k == a.1) = false := beq_eq_false_iff_ne.mpr hk
      obtain ⟨a1, a2⟩ := a
      simp only [List.lookup, h0] at h
      exact List.mem_cons_of_mem _ (ih h)

end FinSmart

namespace FinSmart

/-- The emitted risks are the sector risks followed by the region risks. -/
lemma analyzeConcentration_risks (θ : ℚ) (p : Portfolio) (hs : List Holding) :
    (analyzeConcentration θ p hs).concentration_risks =
      sectorRisks θ (concentrationMap (fun h => h.sector) hs) ++
        regionRisks (concentrationMap (fun h => h.region) hs) := rfl

/-- Membership in the sector-risk list, elementwise. -/
lemma mem_sectorRisks_iff (θ : ℚ) (m : List (String × ℚ))
    (r : ConcentrationRisk) :
    r ∈ sectorRisks θ m ↔ ∃ e ∈ m, e.2 > θ ∧
      r = { type := "sector", name := e.1, concentration := e.2,
            threshold := θ, severity := sectorSeverity e.2 } := by
  simp only [sectorRisks, List.mem_filterMap]
  constructor
  · rintro ⟨e, he, hr⟩
    by_cases hgt : e.2 > θ
    · rw [if_pos hgt] at hr
      exact ⟨e, he, hgt, (Option.some.injEq _ _ ▸ hr).symm⟩
    · rw [if_neg hgt] at hr; cases hr
  · rintro ⟨e, he, hgt, hr⟩
    exact ⟨e, he, by rw [if_pos hgt, hr]⟩

/-- Every region risk carries the `geographic` type tag. -/
lemma regionRisks_type (m : List (String × ℚ)) (r : ConcentrationRisk)
    (h : r ∈ regionRisks m) : r.type = "geographic" := by
  simp only [regionRisks, List.mem_filterMap] at h
  obtain ⟨e, he, hr⟩ := h
  by_cases hgt : e.2 > 3/4
  · rw [if_pos hgt] at hr
    cases hr
    rfl
  · rw [if_neg hgt] at hr; cases hr

/-- C4: for a nonnegative configured threshold and a portfolio with at
least one holding, `analyzeConcentration` emits a sector finding for
sector `X` exactly when the summed `weight_percent / 100` over the
holdings of `X` strictly exceeds the threshold (default 0.30); an observed
value exactly equal to the threshold produces no finding.  (For a negative
threshold a sector named by no holding would vacuously exceed it with sum
0 without an entry in the map, so the iff is stated for the configured
fraction thresholds, which are nonnegative.) -/
theorem analyzeConcentration_sector_finding_iff (θ : ℚ) (p : Portfolio)
    (hs : List Holding) (hne : hs ≠ []) (hθ : 0 ≤ θ) (X : String) :
    (∃ r ∈ (analyzeConcentration θ p hs).concentration_risks,
        r.type = "sector" ∧ r.name = X) ↔ sectorWeight hs X > θ := by
  constructor
  · rintro ⟨r, hr, hty, hnm⟩
    rw [analyzeConcentration_risks] at hr
    rcases List.mem_append.mp hr with hrs | hrr
    · obtain ⟨e, he, hgt, hre⟩ := (mem_sectorRisks_iff θ _ r).mp hrs
      have hX : e.1 = X := by rw [hre] at hnm; exact hnm
      have hl := lookup_eq_some_of_mem _
        (concentrationMap_nodupKeys (fun h => h.sector) hs) e he
      rw [concentrationMap_lookup] at hl
      by_cases hex : ∃ h ∈ hs, h.sector = e.1
      · rw [if_pos hex] at hl
        have he2 : e.2 = groupSum (fun h => h.sector) hs e.1 :=
          (Option.some.injEq _ _ ▸ hl).symm
        rw [sectorWeight, ← hX, ← he2]
        exact hgt
      · rw [if_neg hex] at hl; cases hl
    · have hg := regionRisks_type _ r hrr
      rw [hg] at hty
      exact absurd hty (by decide)
  · intro hgt
    have hpos : 0 < sectorWeight hs X := lt_of_le_of_lt hθ hgt
    have hex : ∃ h ∈ hs, h.sector = X := by
      by_contra hno
      push_neg at hno
      have hz : sectorWeight hs X = 0 := by
        rw [sectorWeight, groupSum]
        have hfil : hs.filter (fun h => h.sector == X) = [] := by
          rw [List.filter_eq_nil_iff]
          intro h hh
          simpa using hno h hh
        rw [hfil]
        simp
      rw [hz] at hpos
      exact lt_irrefl 0 hpos
    have hl := concentrationMap_lookup (fun h => h.sector) hs X
    rw [if_pos hex] at hl
    have hmem := mem_of_lookup_eq_some _ _ _ hl
    refine ⟨{ type := "sector", name := X,
              concentration := groupSum (fun h => h.sector) hs X,
              threshold := θ,
              severity := sectorSeverity (groupSum (fun h => h.sector) hs X) },
            ?_, rfl, rfl⟩
    rw [analyzeConcentration_risks]
    refine List.mem_append.mpr (Or.inl ?_)
    exact (mem_sectorRisks_iff θ _ _).mpr
      ⟨(X, groupSum (fun h => h.sector) hs X), hmem, hgt, rfl⟩

/-- Witness for C4 at the sample portfolio: Technology carries weight 1,
which strictly exceeds the default threshold 0.30. -/
theorem analyzeConcentration_sector_finding_iff_wit :
    ∃ r ∈ (analyzeConcentration (3/10) pPos [hTech]).concentration_risks,
      r.type = "sector" ∧ r.name = "Technology" :=
  (analyzeConcentration_sector_finding_iff (3/10) pPos [hTech] (by simp)
    (by norm_num) "Technology").mpr
    (by norm_num [sectorWeight, groupSum, hTech])

end FinSmart

namespace FinSmart

/-- The three-tier string classifier used by both the VaR handler (2/5)
and the stress handler (10/20): level as a function of the observed value. -/
lemma tier_iff (q lo hi : ℚ) (hlh : lo < hi) :
    ((if q > hi then "high" else if q > lo then "medium" else "low") = "high"
        ↔ q > hi)
    ∧ ((if q > hi then "high" else if q > lo then "medium" else "low")
        = "medium" ↔ lo < q ∧ q ≤ hi)
    ∧ ((if q > hi then "high" else if q > lo then "medium" else "low")
        = "low" ↔ q ≤ lo) := by
  by_cases h1 : q > hi
  · rw [if_pos h1]
    exact ⟨⟨fun _ => h1, fun _ => rfl⟩,
      ⟨fun hme => absurd hme (by decide), fun hc => absurd hc.2 (not_le.mpr h1)⟩,
      ⟨fun hlo => absurd hlo (by decide),
        fun hle => absurd hle (not_le.mpr (lt_trans hlh h1))⟩⟩
  · by_cases h2 : q > lo
    · rw [if_neg h1, if_pos h2]
      exact ⟨⟨fun hh => absurd hh (by decide), fun hgt => absurd hgt h1⟩,
        ⟨fun _ => ⟨h2, not_lt.mp h1⟩, fun _ => rfl⟩,
        ⟨fun hlo => absurd hlo (by decide),
          fun hle => absurd hle (not_le.mpr h2)⟩⟩
    · rw [if_neg h1, if_neg h2]
      exact ⟨⟨fun hh => absurd hh (by decide), fun hgt => absurd hgt h1⟩,
        ⟨fun hme => absurd hme (by decide),
          fun hc => absurd hc.1 (not_lt.mpr (not_lt.mp h2))⟩,
        ⟨fun _ => not_lt.mp h2, fun _ => rfl⟩⟩

/-- C1 amended: classifyVar never raises; every portfolio gets an assessment. -/
theorem classifyVar_never_errors (s5 s22 c : ℚ) (p : Portfolio) :
    (¬ ∃ e : VarError, classifyVar s5 s22 c p = Except.error e)
    ∧ ∃ a : VarAssessment, classifyVar s5 s22 c p = Except.ok a := by
  constructor
  · rintro ⟨e, he⟩
    simp [classifyVar] at he
  · exact ⟨_, rfl⟩

/-- C1 counterexample: a portfolio whose total value is 0 does not make
`classifyVar` produce `InvalidPortfolioError`; the handler has no
validation and returns an assessment. -/
theorem classifyVar_no_validation_cex :
    pZero.total_value ≤ 0
    ∧ classifyVar (2236068/1000000) (4690416/1000000) (95/100) pZero
        ≠ Except.error VarError.invalidPortfolio := by
  constructor
  · norm_num [pZero]
  · simp [classifyVar]

/-- C6: for every portfolio with positive total value, the assessment
reports `var_percentage = |var_1d| / total_value * 100` and the three
horizons as negative magnitudes, with the 5-day and 1-month values scaled
by the (floating-point) square roots of 5 and 22 that `sqrt5`/`sqrt22`
stand for. -/
theorem classifyVar_horizon_scaling (s5 s22 c : ℚ) (p : Portfolio)
    (hpos : 0 < p.total_value) (a : VarAssessment)
    (ha : classifyVar s5 s22 c p = Except.ok a) :
    a.var_percentage = |p.var_1d| / p.total_value * 100
    ∧ a.var_1d = -|p.var_1d|
    ∧ a.var_5d = -(|p.var_1d| * s5)
    ∧ a.var_1m = -(|p.var_1d| * s22) := by
  have ha' : varAssessmentOf s5 s22 c p = a := by
    simpa [classifyVar] using ha
  subst ha'
  exact ⟨rfl, rfl, rfl, rfl⟩

theorem classifyVar_horizon_scaling_wit :
    (varAssessmentOf (2236068/1000000) (4690416/1000000) (95/100)
        pPos).var_percentage = |pPos.var_1d| / pPos.total_value * 100 :=
  (classifyVar_horizon_scaling (2236068/1000000) (4690416/1000000) (95/100)
    pPos (by norm_num [pPos]) _ rfl).1

/-- C7: for every portfolio with positive total value, the risk level is
high iff var_percentage > 5, medium iff 2 < var_percentage <= 5, low iff
var_percentage <= 2, and the composite risk score equals
var_percentage * (margin_utilization + 0.5). -/
theorem classifyVar_risk_level_and_score (s5 s22 c : ℚ) (p : Portfolio)
    (hpos : 0 < p.total_value) (a : VarAssessment)
    (ha : classifyVar s5 s22 c p = Except.ok a) :
    ((a.risk_level = "high" ↔ a.var_percentage > 5)
    ∧ (a.risk_level = "medium" ↔ 2 < a.var_percentage ∧ a.var_percentage ≤ 5)
    ∧ (a.risk_level = "low" ↔ a.var_percentage ≤ 2))
    ∧ a.risk_score = a.var_percentage * (p.margin_utilization + 1/2) := by
  have ha' : varAssessmentOf s5 s22 c p = a := by
    simpa [classifyVar] using ha
  subst ha'
  exact ⟨tier_iff _ 2 5 (by norm_num), rfl⟩

theorem classifyVar_risk_level_and_score_wit :
    (varAssessmentOf (2236068/1000000) (4690416/1000000) (95/100)
        pPos).risk_level = "low" :=
  (((classifyVar_risk_level_and_score (2236068/1000000) (4690416/1000000)
      (95/100) pPos (by norm_num [pPos]) _ rfl).1).2.2).mpr
    (by norm_num [varAssessmentOf, pPos])

end FinSmart

namespace FinSmart

/-- C5: every scenario result of `runStressTest` has severity high iff
impact_percentage > 20, medium iff 10 < impact_percentage <= 20, and low
otherwise; in particular exactly 10 and every negative (net-gain)
percentage classify as low. -/
theorem stress_severity_breakpoints (p : Portfolio) (hs : List Holding)
    (scs : Option (List Scenario)) (l : List ScenarioResult)
    (hok : runStressTest p hs scs = Except.ok l)
    (r : ScenarioResult) (hr : r ∈ l) :
    (r.risk_level = "high" ↔ r.impact_percentage > 20)
    ∧ (r.risk_level = "medium" ↔ 10 < r.impact_percentage
        ∧ r.impact_percentage ≤ 20)
    ∧ (r.risk_level = "low" ↔ r.impact_percentage ≤ 10) := by
  rcases scs with _ | (_ | ⟨s, t⟩)
  · exact Except.noConfusion hok
  · exact Except.noConfusion hok
  · simp only [runStressTest] at hok
    have hl : (s :: t).map (scenarioResultOf p hs) = l := by
      injection hok
    rw [← hl] at hr
    obtain ⟨sc, hsc, hr'⟩ := List.mem_map.mp hr
    rw [← hr']
    exact tier_iff _ 10 20 (by norm_num)

theorem stress_severity_breakpoints_wit :
    (scenarioResultOf pOneM [hTech] scDown).risk_level = "low" :=
  ((stress_severity_breakpoints pOneM [hTech] (some [scDown]) _ rfl _
      (by simp)).2.2).mpr
    (by norm_num [scenarioResultOf, holdingImpactOf, holdingShockOf, jsOr,
      lookupShock, scDown, hTech, pOneM])

/-- C8: a missing or empty scenario list is rejected with the
invalid-scenario error before any computation and with no results; a
nonempty list is never rejected and produces one result per scenario. -/
theorem runStressTest_empty_guard (p : Portfolio) (hs : List Holding) :
    runStressTest p hs none = Except.error StressError.invalidScenario
    ∧ runStressTest p hs (some []) = Except.error StressError.invalidScenario
    ∧ ∀ (s : Scenario) (t : List Scenario),
        runStressTest p hs (some (s :: t)) =
          Except.ok ((s :: t).map (scenarioResultOf p hs)) :=
  ⟨rfl, rfl, fun _ _ => rfl⟩

/-- C9: the result list is the scenario-wise image of one pure function
of the unshocked portfolio and holdings, so the i-th result comes from
the i-th scenario (order preserved) and equal scenarios give identical
results wherever they appear in the list. -/
theorem runStressTest_order_and_independence (p : Portfolio)
    (hs : List Holding) (scs : List Scenario) (l : List ScenarioResult)
    (hok : runStressTest p hs (some scs) = Except.ok l) :
    (∀ i : ℕ, l[i]? = (scs[i]?).map (scenarioResultOf p hs))
    ∧ ∀ i j : ℕ, scs[i]? = scs[j]? → l[i]? = l[j]? := by
  have hl : scs.map (scenarioResultOf p hs) = l := by
    rcases scs with _ | ⟨s, t⟩
    · exact Except.noConfusion hok
    · simp only [runStressTest] at hok
      injection hok
  constructor
  · intro i
    rw [← hl, List.getElem?_map]
  · intro i j hij
    rw [← hl, List.getElem?_map, List.getElem?_map, hij]

theorem runStressTest_order_and_independence_wit :
    (List.map (scenarioResultOf pPos [hTech]) [scDown, scDown])[0]?
      = (List.map (scenarioResultOf pPos [hTech]) [scDown, scDown])[1]? :=
  (runStressTest_order_and_independence pPos [hTech] [scDown, scDown] _
    rfl).2 0 1 rfl

end FinSmart

namespace FinSmart

/-- C2 amended: the actual shock-selection rule, including the implicit
-0.1 default and the truthiness treatment of explicit zeros. -/
theorem stress_shock_selection (sc : Scenario) (h : Holding) :
    (∀ v : ℚ, lookupShock sc.sector_shocks h.sector = some v → v ≠ 0 →
        holdingShockOf sc h = v)
    ∧ ((lookupShock sc.sector_shocks h.sector = none
          ∨ lookupShock sc.sector_shocks h.sector = some 0) →
        ((sc.market_shock = none ∨ sc.market_shock = some 0 →
            holdingShockOf sc h = -(1/10))
        ∧ ∀ m : ℚ, sc.market_shock = some m → m ≠ 0 →
            holdingShockOf sc h = m)) := by
  constructor
  · intro v hv hv0
    rw [holdingShockOf, hv]
    simp [hv0]
  · intro hlk
    constructor
    · intro hms
      rcases hlk with hl | hl <;> rw [holdingShockOf, hl] <;>
        rcases hms with hm | hm <;> simp [jsOr, hm]
    · intro m hm hm0
      rcases hlk with hl | hl <;> rw [holdingShockOf, hl] <;>
        simp [jsOr, hm, hm0]

theorem stress_shock_selection_wit :
    holdingShockOf scZero hTech = -(1/10) :=
  ((stress_shock_selection scZero hTech).2 (Or.inl rfl)).1 (Or.inr rfl)

/-- C2 counterexample: an explicitly supplied market shock of 0 does not
yield a zero shock or zero impact; the -0.1 default is applied instead. -/
theorem stress_zero_market_shock_cex :
    scZero.market_shock = some 0
    ∧ lookupShock scZero.sector_shocks hTech.sector = none
    ∧ holdingShockOf scZero hTech ≠ 0
    ∧ (holdingImpactOf scZero hTech).impact ≠ 0 := by
  refine ⟨rfl, rfl, ?_, ?_⟩
  · norm_num [holdingShockOf, jsOr, lookupShock, scZero, hTech]
  · norm_num [holdingImpactOf, holdingShockOf, jsOr, lookupShock, scZero,
      hTech]

/-- C3 amended: the asset-class map is computed, but findings are emitted
only for the sector and geographic dimensions. -/
theorem concentration_no_asset_class_findings (θ : ℚ) (p : Portfolio)
    (hs : List Holding) :
    ((analyzeConcentration θ p hs).asset_class_concentration =
        concentrationMap (fun h => h.asset_class) hs)
    ∧ ∀ r ∈ (analyzeConcentration θ p hs).concentration_risks,
        r.type = "sector" ∨ r.type = "geographic" := by
  refine ⟨rfl, ?_⟩
  intro r hr
  rw [analyzeConcentration_risks] at hr
  rcases List.mem_append.mp hr with h | h
  · left
    obtain ⟨e, he, hgt, hre⟩ := (mem_sectorRisks_iff θ _ r).mp h
    rw [hre]
  · right
    exact regionRisks_type _ r h

theorem concentration_no_asset_class_findings_wit :
    rTech.type = "sector" ∨ rTech.type = "geographic" :=
  (concentration_no_asset_class_findings (3/10) pPos [hTech]).2 _
    (by norm_num [analyzeConcentration, concentrationMap, updateAssoc,
      sectorRisks, regionRisks, sectorSeverity, geoSeverity, hTech, rTech,
      List.filterMap])

/-- C3 counterexample: an asset class holding the whole portfolio exceeds
every configured threshold, yet no `asset_class` finding is emitted. -/
theorem concentration_asset_class_cex :
    (analyzeConcentration (3/10) pPos [hTech]).asset_class_concentration
      = [("Equity", 1)]
    ∧ (1:ℚ) > 3/10
    ∧ (analyzeConcentration (3/10) pPos [hTech]).concentration_risks.filter
        (fun r => r.type == "asset_class") = [] := by
  refine ⟨?_, by norm_num, ?_⟩
  · norm_num [analyzeConcentration, concentrationMap, updateAssoc, hTech]
  · norm_num [analyzeConcentration, concentrationMap, updateAssoc,
      sectorRisks, regionRisks, sectorSeverity, geoSeverity, hTech,
      List.filterMap]
    decide

/-- C10 amended: VaR and stress percentages divide by total_value; the
concentration findings never depend on it. -/
theorem analyzer_division_by_total_value (p : Portfolio) (hs : List Holding)
    (θ s5 s22 c tv tv' : ℚ) (sc : Scenario) :
    ((analyzeConcentration θ { p with total_value := tv } hs).concentration_risks
      = (analyzeConcentration θ { p with total_value := tv' } hs).concentration_risks)
    ∧ (varAssessmentOf s5 s22 c p).var_percentage
        = |p.var_1d| / p.total_value * 100
    ∧ (scenarioResultOf p hs sc).impact_percentage
        = (scenarioResultOf p hs sc).total_impact / p.total_value * 100 :=
  ⟨rfl, rfl, rfl⟩

/-- C10 counterexample: with total_value = 0 the concentration analyzer
still returns the same, nonempty findings as with a positive value. -/
theorem concentration_total_value_cex :
    pZero.total_value = 0
    ∧ (analyzeConcentration (3/10) pZero [hTech]).concentration_risks
        = (analyzeConcentration (3/10) pPos [hTech]).concentration_risks
    ∧ (analyzeConcentration (3/10) pZero [hTech]).concentration_risks ≠ [] := by
  refine ⟨rfl, rfl, ?_⟩
  norm_num [analyzeConcentration, concentrationMap, updateAssoc,
    sectorRisks, regionRisks, sectorSeverity, geoSeverity, hTech, pZero,
    List.filterMap]
  exact List.cons_ne_nil _ _

end FinSmart

namespace FinSmart

/-- Witness for C1's amended theorem at the zero-value portfolio. -/
theorem classifyVar_never_errors_wit :
    ∃ a : VarAssessment, classifyVar 1 1 (95/100) pZero = Except.ok a :=
  (classifyVar_never_errors 1 1 (95/100) pZero).2

/-- Witness for C8 at the sample portfolio. -/
theorem runStressTest_empty_guard_wit :
    runStressTest pPos [hTech] none
      = Except.error StressError.invalidScenario :=
  (runStressTest_empty_guard pPos [hTech]).1

/-- Witness for C10's amended theorem at the sample portfolio. -/
theorem analyzer_division_by_total_value_wit :
    (varAssessmentOf 1 1 (95/100) pPos).var_percentage
      = |pPos.var_1d| / pPos.total_value * 100 :=
  (analyzer_division_by_total_value pPos [hTech] (3/10) 1 1 (95/100) 0 1
    scDown).2.1

end FinSmart
